import Mathlib

/-!
Verification of the core data/model/explanation layer of `src/app.py`
(ML Interpreter: tabular classifiers visually explained).

The embedding models pandas/sklearn-style tables shallowly: a table is a
header (column name, dtype) plus rows of cells; cell values are integers or
strings.  Missing values are outside the model (tables are assumed fully
populated), so `pandas.fillna(0)` is the identity and is omitted.  Machine
floats carried by the libraries are modelled as rationals.
-/

namespace MLInterpret

/-- Cell values of a table: numbers or strings. -/
inductive Val where
  | num (n : Int)
  | str (s : String)
deriving DecidableEq

/-- Display string of a cell value, used for dummy-column naming. -/
def valName : Val → String
  | Val.num n => toString n
  | Val.str s => s

/-- Column dtypes relevant to `encode_data`: numeric columns pass through
one-hot expansion untouched; object (categorical) columns are expanded. -/
inductive Dtype where
  | numeric
  | object
deriving DecidableEq

/-- A pandas-style dataframe: named, dtyped columns and rows of cells. -/
structure DataFrame where
  header : List (String × Dtype)
  rows : List (List Val)
deriving DecidableEq

/-- First-occurrence-ordered distinct values, the order used by both
`pandas.unique` and `pandas.factorize` on an object column. -/
def pdUnique {α : Type} [DecidableEq α] : List α → List α
  | [] => []
  | a :: l => a :: pdUnique (l.filter (fun b => decide (b ≠ a)))
termination_by l => l.length
decreasing_by
  simp only [List.length_cons]
  exact Nat.lt_succ_of_le (List.length_filter_le _ _)

/-- Integer codes of `pandas.factorize`: each value is replaced by the index
of its first occurrence among the distinct values (first-occurrence order). -/
def factorizeCodes {α : Type} [DecidableEq α] (vals : List α) : List Nat :=
  vals.map (fun v => (pdUnique vals).indexOf v)

/-- Position of a named column in the header. -/
def colIdx (df : DataFrame) (c : String) : Nat :=
  df.header.findIdx (fun h => decide (h.1 = c))

/-- The values of a named column, one per row. -/
def colValues (df : DataFrame) (c : String) : List Val :=
  df.rows.map (fun r => r.getD (colIdx df c) (Val.num 0))

/-- The in-place dtype assignment `data[targetcol] = data[targetcol].astype('object')`
of src/app.py line 52, modelled as returning the updated frame: the named
column keeps its name and values but its dtype becomes `dt`. -/
def setDtype (df : DataFrame) (c : String) (dt : Dtype) : DataFrame :=
  { header := df.header.map (fun h => if h.1 = c then (h.1, dt) else h),
    rows := df.rows }

/-- pandas `DataFrame.drop(c, axis=1)`: remove the named column (a copy;
the input frame is untouched). -/
def dropCol (df : DataFrame) (c : String) : DataFrame :=
  { header := df.header.filter (fun h => decide (h.1 ≠ c)),
    rows := df.rows.map (fun r =>
      ((df.header.zip r).filter (fun p => decide (p.1.1 ≠ c))).map Prod.snd) }

/-- Header entries a single column expands to under one-hot encoding:
numeric columns pass through; an object column becomes one indicator
column per distinct value. -/
def dummyCols (df : DataFrame) (h : String × Dtype) : List (String × Dtype) :=
  match h.2 with
  | Dtype.numeric => [h]
  | Dtype.object =>
      (pdUnique (colValues df h.1)).map (fun v => (h.1 ++ "_" ++ valName v, Dtype.numeric))

/-- Cells a single cell expands to under one-hot encoding, aligned with
`dummyCols`: the indicator of the matching category is 1, the others 0. -/
def dummyCells (df : DataFrame) (h : String × Dtype) (v : Val) : List Val :=
  match h.2 with
  | Dtype.numeric => [v]
  | Dtype.object =>
      (pdUnique (colValues df h.1)).map (fun u => if u = v then Val.num 1 else Val.num 0)

/-- pandas `get_dummies`: one-hot expand the object columns of a frame,
keeping numeric columns; the row count is preserved. -/
def get_dummies (df : DataFrame) : DataFrame :=
  { header := df.header.flatMap (dummyCols df),
    rows := df.rows.map (fun r => (df.header.zip r).flatMap (fun p => dummyCells df p.1 p.2)) }

/-- Result of `encode_data`: the (mutated) input frame, the feature matrix,
the integer-coded target, the feature names, and the target labels. -/
structure EncodeResult where
  dataAfter : DataFrame
  X : DataFrame
  y : List Nat
  features : List String
  target_labels : List Val
deriving DecidableEq

/-- Shallow embedding of `encode_data` (src/app.py lines 48-55).
`X = pd.get_dummies(data.drop(targetcol, axis=1)).fillna(0)` (tables carry
no missing values in the model, so `fillna(0)` is the identity);
`features = X.columns`; the in-place assignment
`data[targetcol] = data[targetcol].astype('object')` is modelled by
returning the updated frame as `dataAfter`;
`target_labels = data[targetcol].unique()` (first-occurrence order);
`y = pd.factorize(data[targetcol])[0]`. -/
def encode_data (data : DataFrame) (targetcol : String) : EncodeResult :=
  let X := get_dummies (dropCol data targetcol)
  let features := X.header.map Prod.fst
  let dataAfter := setDtype data targetcol Dtype.object
  let target_labels := pdUnique (colValues dataAfter targetcol)
  let y := factorizeCodes (colValues dataAfter targetcol)
  { dataAfter := dataAfter, X := X, y := y, features := features,
    target_labels := target_labels }

/-- Error raised when a split would leave the train or test side empty. -/
inductive SplitError where
  | insufficientData
deriving DecidableEq

/-- Modelled from the spec: `sklearn.model_selection.train_test_split` with
`train_size=0.80, random_state=0` (the library routine is not part of this
repository).  With a float train size the train side receives
`floor(0.8 * n) = 4 * n / 5` rows and the test side the rest, and the call
fails when either side would be empty, i.e. exactly when fewer than 2 rows
are given.  The fixed-seed shuffle is modelled as the identity permutation;
the spec requires only a fixed, reproducible 80/20 partition. -/
def train_test_split (X : List (List Val)) (y : List Nat) :
    Except SplitError (List (List Val) × List (List Val) × List Nat × List Nat) :=
  let n := X.length
  let n_train := 4 * n / 5
  if n_train = 0 ∨ n - n_train = 0 then Except.error SplitError.insufficientData
  else Except.ok (X.take n_train, X.drop n_train, y.take n_train, y.drop n_train)

/-- Shallow embedding of `splitdata` (src/app.py lines 58-62). -/
def splitdata (X : List (List Val)) (y : List Nat) :
    Except SplitError (List (List Val) × List (List Val) × List Nat × List Nat) :=
  train_test_split X y

/-- The three adapter kinds selectable in `main` (src/app.py line 243). -/
inductive ModelDim where
  | randomforest
  | lightGBM
  | xgboost
deriving DecidableEq

/-- Error raised when training is attempted on a degenerate target. -/
inductive TrainingError where
  | insufficientClasses
deriving DecidableEq

/-- A trained model, tagged with the adapter kind that produced it. -/
structure TrainedModel where
  kind : ModelDim
  classes : List Nat
deriving DecidableEq

/-- Modelled from the spec: the per-adapter training operation (`clf.fit`
for random forest and lightGBM, `xgb.train` for XGBoost; src/app.py lines
244-264 only dispatch to these external library calls).  Per the spec,
training fails with a `TrainingError` when `y_train` has fewer than 2
distinct classes, and otherwise yields a model tagged with its adapter
kind; no model value accompanies a failure. -/
def train (kind : ModelDim) (X_train : List (List Val)) (y_train : List Nat) :
    Except TrainingError TrainedModel :=
  if (pdUnique y_train).length < 2 then Except.error TrainingError.insufficientClasses
  else Except.ok { kind := kind, classes := pdUnique y_train }

/-- The keyword arguments `main` passes to `lgb.LGBMClassifier`. -/
structure LGBMClassifier where
  class_weight : Option String
  objective : String
  n_jobs : Int
  verbose : Int
deriving DecidableEq

/-- Shallow embedding of the lightGBM branch of `main` (src/app.py lines
247-258): the classifier configuration constructed before `fit`, chosen
from the number of target labels. -/
def lightGBM_clf (target_labels : List Val) : LGBMClassifier :=
  if target_labels.length > 2 then
    { class_weight := some "balanced", objective := "multiclass", n_jobs := -1, verbose := -1 }
  else
    { class_weight := none, objective := "binary", n_jobs := -1, verbose := -1 }

/-- Keep the entries of a list selected by a boolean mask, in order. -/
def maskFilter {α : Type} : List Bool → List α → List α
  | [], _ => []
  | _ :: _, [] => []
  | b :: m, a :: l => if b then a :: maskFilter m l else maskFilter m l

/-- Shallow embedding of `filter_misclassified` (src/app.py lines 98-103):
`idx_misclassified = pred != y_test` is an elementwise boolean mask, and
each of the three inputs is restricted to the masked rows. -/
def filter_misclassified (X_test : List (List Val)) (y_test pred : List Nat) :
    List (List Val) × List Nat × List Nat :=
  let idx_misclassified := List.zipWith (fun p t => decide (p ≠ t)) pred y_test
  (maskFilter idx_misclassified X_test,
   maskFilter idx_misclassified y_test,
   maskFilter idx_misclassified pred)

/-- Rounding to two decimals, as `DataFrame.round(2)` displays scores. -/
def round2 (q : ℚ) : ℚ := ((round (q * 100) : Int) : ℚ) / 100

/-- Ordering by descending absolute score on (feature, score) pairs. -/
def absDescRel (a b : String × ℚ) : Prop := |b.2| ≤ |a.2|

instance : DecidableRel absDescRel :=
  fun a b => inferInstanceAs (Decidable (|b.2| ≤ |a.2|))

instance : IsTotal (String × ℚ) absDescRel :=
  ⟨fun a b => le_total (|b.2|) (|a.2|)⟩

instance : IsTrans (String × ℚ) absDescRel :=
  ⟨fun _ _ _ h1 h2 => le_trans h2 h1⟩

/-- Modelled from the spec: `eli5.explain_weights_df(perm, feature_names=...,
top=5)` (the library routine is not part of this repository) — it ranks
features by descending absolute importance score and keeps at most `top`
entries.  The numeric importance scores are inputs: src/app.py lines 75-78
obtain them from the external permutation-importance computation. -/
def explain_weights_df (scores : List (String × ℚ)) (top : Nat) : List (String × ℚ) :=
  (List.insertionSort absDescRel scores).take top

/-- Shallow embedding of `show_global_interpretation_eli5` (src/app.py lines
73-86): the structured ranking behind the chart — the eli5 ranking truncated
to 5 entries with scores rounded by `df_global_explain.round(2)`. -/
def show_global_interpretation_eli5 (scores : List (String × ℚ)) : List (String × ℚ) :=
  (explain_weights_df scores 5).map (fun p => (p.1, round2 p.2))

/-- Modelled from the spec: `shap.summary_plot(shap_values, X_train,
plot_type="bar", max_display=5, ...)` (the library routine is not part of
this repository) — it ranks features by descending aggregate absolute
contribution and displays at most `max_display` entries at the fixed
display precision.  The per-feature aggregate contributions are inputs. -/
def shap_summary_ranking (meanAbs : List (String × ℚ)) (maxDisplay : Nat) : List (String × ℚ) :=
  (List.insertionSort absDescRel meanAbs).take maxDisplay

/-- Shallow embedding of `show_global_interpretation_shap` (src/app.py lines
89-95): the ranking shown, rounded to the fixed display precision. -/
def show_global_interpretation_shap (meanAbs : List (String × ℚ)) : List (String × ℚ) :=
  (shap_summary_ranking meanAbs 5).map (fun p => (p.1, round2 p.2))

/-- The data handed to the SHAP force plot for one instance. -/
structure LocalShapOutput where
  base : ℚ
  contribs : List ℚ
  rowValues : List Val
deriving DecidableEq

/-- Shallow embedding of `show_local_interpretation_shap` (src/app.py lines
130-147): `pred_i = int(pred[slider_idx])`, and the force plot receives
`explainer.expected_value[pred_i]`, `shap_values[pred_i][slider_idx, :]` and
`X_test.iloc[slider_idx, :]`.  The explainer outputs (`expected_value`
indexed by class, `shap_values` indexed by class then row then feature) are
inputs to the model. -/
def show_local_interpretation_shap (expected_value : List ℚ)
    (shap_values : List (List (List ℚ))) (X_test : List (List Val))
    (pred : List Nat) (slider_idx : Nat) : LocalShapOutput :=
  let pred_i := pred.getD slider_idx 0
  { base := expected_value.getD pred_i 0,
    contribs := (shap_values.getD pred_i []).getD slider_idx [],
    rowValues := X_test.getD slider_idx [] }

/-- Shallow embedding of `show_local_interpretation` (src/app.py lines
150-162): the headline pairs the predicted label with the actual label;
the SHAP branch then builds the force-plot data from the prediction vector
alone (`y_test` is not passed to it).  The ELI5 branch renders an eli5
table instead, so its SHAP component is `none`. -/
def show_local_interpretation (X_test : List (List Val)) (y_test : List Nat)
    (expected_value : List ℚ) (shap_values : List (List (List ℚ)))
    (pred : List Nat) (target_labels : List Val) (dim_framework : String)
    (slider_idx : Nat) : (Val × Val) × Option LocalShapOutput :=
  let headline := (target_labels.getD (pred.getD slider_idx 0) (Val.num 0),
                   target_labels.getD (y_test.getD slider_idx 0) (Val.num 0))
  if dim_framework = "SHAP" then
    (headline, some (show_local_interpretation_shap expected_value shap_values X_test pred slider_idx))
  else
    (headline, none)

/-! Helper lemmas about the embedding's primitives. -/

theorem mem_pdUnique {α : Type} [DecidableEq α] (a : α) (l : List α) :
    a ∈ pdUnique l ↔ a ∈ l := by
  induction l using pdUnique.induct with
  | case1 => simp [pdUnique]
  | case2 b l ih =>
      rw [pdUnique]
      simp only [List.mem_cons, ih, List.mem_filter]
      by_cases hab : a = b
      · simp [hab]
      · simp [hab]

theorem pdUnique_nodup {α : Type} [DecidableEq α] (l : List α) : (pdUnique l).Nodup := by
  induction l using pdUnique.induct with
  | case1 => simp [pdUnique]
  | case2 b l ih =>
      rw [pdUnique]
      refine List.nodup_cons.mpr ⟨?_, ih⟩
      intro hmem
      rw [mem_pdUnique] at hmem
      simp [List.mem_filter] at hmem

theorem pdUnique_toFinset {α : Type} [DecidableEq α] (l : List α) :
    (pdUnique l).toFinset = l.toFinset := by
  ext a
  simp [List.mem_toFinset, mem_pdUnique]

theorem pdUnique_length_eq_card {α : Type} [DecidableEq α] (l : List α) :
    (pdUnique l).length = l.toFinset.card := by
  rw [← List.toFinset_card_of_nodup (pdUnique_nodup l), pdUnique_toFinset]

theorem findIdx_header_map (hd : List (String × Dtype)) (c c' : String) (dt : Dtype) :
    (hd.map (fun h => if h.1 = c then (h.1, dt) else h)).findIdx (fun h => decide (h.1 = c'))
      = hd.findIdx (fun h => decide (h.1 = c')) := by
  induction hd with
  | nil => rfl
  | cons h t ih =>
      simp only [List.map_cons, List.findIdx_cons]
      by_cases hc : h.1 = c
      · simp [hc, ih]
      · simp [hc, ih]

theorem colValues_setDtype (df : DataFrame) (c : String) (dt : Dtype) (c' : String) :
    colValues (setDtype df c dt) c' = colValues df c' := by
  unfold colValues colIdx setDtype
  simp only
  rw [findIdx_header_map]

theorem maskFilter_zipWith {α β γ : Type} (f : α → β → γ) :
    ∀ (m : List Bool) (a : List α) (b : List β),
    maskFilter m (List.zipWith f a b) = List.zipWith f (maskFilter m a) (maskFilter m b) := by
  intro m
  induction m with
  | nil => intro a b; simp [maskFilter]
  | cons bit m ih =>
      intro a b
      cases a with
      | nil => simp [maskFilter]
      | cons x a' =>
          cases b with
          | nil => cases bit <;> simp [maskFilter]
          | cons z b' => cases bit <;> simp [maskFilter, ih]

theorem maskFilter_self : ∀ (m : List Bool),
    maskFilter m m = List.replicate (m.count true) true := by
  intro m
  induction m with
  | nil => rfl
  | cons b m ih => cases b <;> simp [maskFilter, ih, List.count_cons, List.replicate_succ]

theorem maskFilter_replicate_true {α : Type} :
    ∀ (k : Nat) (l : List α), maskFilter (List.replicate k true) l = l.take k := by
  intro k
  induction k with
  | zero => intro l; cases l <;> simp [maskFilter]
  | succ k ih =>
      intro l
      cases l with
      | nil => simp [maskFilter, List.replicate_succ]
      | cons a l' => simp [List.replicate_succ, maskFilter, ih]

theorem maskFilter_length_eq_count {α : Type} :
    ∀ (m : List Bool) (l : List α), m.length ≤ l.length →
    (maskFilter m l).length = m.count true := by
  intro m
  induction m with
  | nil => intro l _; simp [maskFilter]
  | cons b m ih =>
      intro l h
      cases l with
      | nil => simp at h
      | cons a l' =>
          have h' : m.length ≤ l'.length := by simpa using h
          cases b <;> simp [maskFilter, List.count_cons, ih l' h']

theorem maskFilter_nil {α : Type} (m : List Bool) : maskFilter m ([] : List α) = [] := by
  cases m <;> rfl

theorem maskFilter_mis_fst {α : Type} :
    ∀ (X : List α) (y pred : List Nat), X.length = y.length → y.length = pred.length →
    maskFilter (List.zipWith (fun p t => decide (p ≠ t)) pred y) X
      = ((X.zip (y.zip pred)).filter (fun r => decide (r.2.2 ≠ r.2.1))).map Prod.fst := by
  intro X
  induction X with
  | nil => intro y pred _ _; simp [maskFilter_nil]
  | cons x X' ih =>
      intro y pred hXy hyp
      cases y with
      | nil => simp at hXy
      | cons t y' =>
          cases pred with
          | nil => simp at hyp
          | cons p pred' =>
              have hXy' : X'.length = y'.length := by simpa using hXy
              have hyp' : y'.length = pred'.length := by simpa using hyp
              have ihh := ih y' pred' hXy' hyp'
              simp only [decide_not] at ihh
              by_cases hpt : p = t <;> simp [maskFilter, hpt, ihh]

theorem maskFilter_mis_pair :
    ∀ (y pred : List Nat), y.length = pred.length →
    maskFilter (List.zipWith (fun p t => decide (p ≠ t)) pred y) y
      = ((y.zip pred).filter (fun r => decide (r.2 ≠ r.1))).map Prod.fst
    ∧ maskFilter (List.zipWith (fun p t => decide (p ≠ t)) pred y) pred
      = ((y.zip pred).filter (fun r => decide (r.2 ≠ r.1))).map Prod.snd := by
  intro y
  induction y with
  | nil => intro pred _; simp [maskFilter_nil, maskFilter]
  | cons t y' ih =>
      intro pred hyp
      cases pred with
      | nil => simp at hyp
      | cons p pred' =>
          have hyp' : y'.length = pred'.length := by simpa using hyp
          have ih1 := (ih pred' hyp').1
          have ih2 := (ih pred' hyp').2
          simp only [decide_not] at ih1 ih2
          by_cases hpt : p = t <;> simp [maskFilter, hpt, ih1, ih2]

theorem maskFilter_all_classified {α : Type} :
    ∀ (y pred : List Nat) (L : List α),
    (∀ i, i < y.length → pred.getD i 0 = y.getD i 0) →
    maskFilter (List.zipWith (fun p t => decide (p ≠ t)) pred y) L = [] := by
  intro y
  induction y with
  | nil => intro pred L _; simp [maskFilter]
  | cons t y' ih =>
      intro pred L h
      cases pred with
      | nil => simp [maskFilter]
      | cons p pred' =>
          have h0 : p = t := by simpa using h 0 (by simp)
          cases L with
          | nil => simp [maskFilter_nil]
          | cons a L' =>
              have ihh := ih pred' L' (fun i hi => by
                simpa using h (i + 1) (by simpa using Nat.succ_lt_succ hi))
              simp only [List.zipWith_cons_cons, h0, decide_not]
              simp only [decide_not] at ihh
              simpa [maskFilter] using ihh

/-- C3: for all equal-length (X_test, y_test, pred), `filter_misclassified`
returns exactly the rows at positions i where pred i differs from y_test i,
preserving original row order (stated as the order-preserving zip-filter
characterization of all three outputs), and when no position differs it
returns empty containers of matching schema — it is a total function, so
no error is raised. -/
theorem filter_misclassified_spec (X : List (List Val)) (y pred : List Nat)
    (hXy : X.length = y.length) (hyp : y.length = pred.length) :
    filter_misclassified X y pred =
      ( ((X.zip (y.zip pred)).filter (fun r => decide (r.2.2 ≠ r.2.1))).map Prod.fst,
        ((y.zip pred).filter (fun r => decide (r.2 ≠ r.1))).map Prod.fst,
        ((y.zip pred).filter (fun r => decide (r.2 ≠ r.1))).map Prod.snd )
    ∧ ((∀ i, i < y.length → pred.getD i 0 = y.getD i 0) →
        filter_misclassified X y pred = ([], [], [])) := by
  constructor
  · simp only [filter_misclassified]
    rw [maskFilter_mis_fst X y pred hXy hyp, (maskFilter_mis_pair y pred hyp).1,
      (maskFilter_mis_pair y pred hyp).2]
  · intro h
    simp only [filter_misclassified]
    rw [maskFilter_all_classified y pred X h, maskFilter_all_classified y pred y h,
      maskFilter_all_classified y pred pred h]

/-- Witness for C3 at the spec's concrete scenario: y_test = [0,1,1,0],
pred = [0,0,1,1] keeps exactly the rows at original positions 1 and 3. -/
theorem filter_misclassified_spec_witness :
    ([[Val.num 10], [Val.num 11], [Val.num 12], [Val.num 13]] : List (List Val)).length
        = ([0, 1, 1, 0] : List Nat).length
    ∧ ([0, 1, 1, 0] : List Nat).length = ([0, 0, 1, 1] : List Nat).length
    ∧ filter_misclassified [[Val.num 10], [Val.num 11], [Val.num 12], [Val.num 13]]
        [0, 1, 1, 0] [0, 0, 1, 1] = ([[Val.num 11], [Val.num 13]], [1, 0], [0, 1]) :=
  ⟨rfl, rfl, by
    have h := (filter_misclassified_spec [[Val.num 10], [Val.num 11], [Val.num 12], [Val.num 13]]
      [0, 1, 1, 0] [0, 0, 1, 1] rfl rfl).1
    rw [h]
    rfl⟩

/-- C10: the misclassification filter is idempotent — applying
`filter_misclassified` to its own output returns that output unchanged,
since every retained row already has pred different from y. -/
theorem filter_misclassified_idempotent (X : List (List Val)) (y pred : List Nat)
    (hXy : X.length = y.length) (hyp : y.length = pred.length) :
    filter_misclassified (filter_misclassified X y pred).1
        (filter_misclassified X y pred).2.1 (filter_misclassified X y pred).2.2
      = filter_misclassified X y pred := by
  simp only [filter_misclassified]
  set m := List.zipWith (fun p t => decide (p ≠ t)) pred y with hm
  have hmask : List.zipWith (fun p t => decide (p ≠ t)) (maskFilter m pred) (maskFilter m y)
      = maskFilter m m := by
    rw [← maskFilter_zipWith (fun p t => decide (p ≠ t)) m pred y, ← hm]
  have hmlen : m.length = y.length := by
    rw [hm, List.length_zipWith, ← hyp, Nat.min_self]
  have hX : (maskFilter m X).length = m.count true :=
    maskFilter_length_eq_count m X (by rw [hmlen, ← hXy])
  have hY : (maskFilter m y).length = m.count true :=
    maskFilter_length_eq_count m y (by rw [hmlen])
  have hP : (maskFilter m pred).length = m.count true :=
    maskFilter_length_eq_count m pred (by rw [hmlen, hyp])
  rw [hmask, maskFilter_self, maskFilter_replicate_true, maskFilter_replicate_true,
    maskFilter_replicate_true, List.take_of_length_le (le_of_eq hX),
    List.take_of_length_le (le_of_eq hY), List.take_of_length_le (le_of_eq hP)]

/-- Witness for C10 at a concrete misclassified/correct mix. -/
theorem filter_misclassified_idempotent_witness :
    ([[Val.num 0], [Val.num 1]] : List (List Val)).length = ([0, 1] : List Nat).length
    ∧ ([0, 1] : List Nat).length = ([0, 0] : List Nat).length
    ∧ filter_misclassified (filter_misclassified [[Val.num 0], [Val.num 1]] [0, 1] [0, 0]).1
        (filter_misclassified [[Val.num 0], [Val.num 1]] [0, 1] [0, 0]).2.1
        (filter_misclassified [[Val.num 0], [Val.num 1]] [0, 1] [0, 0]).2.2
      = filter_misclassified [[Val.num 0], [Val.num 1]] [0, 1] [0, 0] :=
  ⟨rfl, rfl, filter_misclassified_idempotent [[Val.num 0], [Val.num 1]] [0, 1] [0, 0] rfl rfl⟩

/-- C4: `encode_data` returns a feature matrix with as many rows as the
input table, a target vector of the same length, and a target-labels
sequence whose length is the number of distinct values in the target
column. -/
theorem encode_data_shapes (data : DataFrame) (targetcol : String) :
    (encode_data data targetcol).X.rows.length = data.rows.length
    ∧ (encode_data data targetcol).y.length = data.rows.length
    ∧ (encode_data data targetcol).target_labels.length
        = (colValues data targetcol).toFinset.card := by
  refine ⟨?_, ?_, ?_⟩
  · simp [encode_data, get_dummies, dropCol]
  · simp [encode_data, factorizeCodes, colValues, setDtype]
  · simp [encode_data, colValues_setDtype, pdUnique_length_eq_card]

/-- C9: after `encode_data`, every code in the target vector is a valid
index into the target labels, and — both the label list and the
factorization using first-occurrence order — indexing the labels at row
i's code gives exactly row i's original target value. -/
theorem factorize_codes_index_labels (data : DataFrame) (targetcol : String) (i : Nat)
    (hi : i < data.rows.length) :
    (encode_data data targetcol).y.getD i 0 < (encode_data data targetcol).target_labels.length
    ∧ (encode_data data targetcol).target_labels.getD
        ((encode_data data targetcol).y.getD i 0) (Val.num 0)
      = (colValues data targetcol).getD i (Val.num 0) := by
  have hvals : colValues (setDtype data targetcol Dtype.object) targetcol
      = colValues data targetcol := colValues_setDtype _ _ _ _
  simp only [encode_data, hvals]
  have hlen : (colValues data targetcol).length = data.rows.length := by simp [colValues]
  have hi' : i < (colValues data targetcol).length := by rw [hlen]; exact hi
  have hcode : (factorizeCodes (colValues data targetcol)).getD i 0
      = (pdUnique (colValues data targetcol)).indexOf (colValues data targetcol)[i] := by
    simp [factorizeCodes, List.getD_eq_getElem?_getD, List.getElem?_eq_getElem hi']
  have hmem : (colValues data targetcol)[i] ∈ pdUnique (colValues data targetcol) :=
    (mem_pdUnique _ _).mpr (List.getElem_mem hi')
  have hlt : (pdUnique (colValues data targetcol)).indexOf (colValues data targetcol)[i]
      < (pdUnique (colValues data targetcol)).length := List.indexOf_lt_length.mpr hmem
  constructor
  · rw [hcode]; exact hlt
  · rw [hcode, List.getD_eq_getElem?_getD, List.getElem?_eq_getElem hlt]
    have hidx := List.indexOf_get (a := (colValues data targetcol)[i])
      (l := pdUnique (colValues data targetcol)) hlt
    rw [List.get_eq_getElem] at hidx
    rw [Option.getD_some, hidx, List.getD_eq_getElem?_getD, List.getElem?_eq_getElem hi',
      Option.getD_some]

/-- Witness for C9: a three-row table with a repeated label; row 2's code
indexes back to row 2's original value. -/
theorem factorize_codes_index_labels_witness :
    2 < (DataFrame.mk [("t", Dtype.object)] [[Val.str "a"], [Val.str "b"], [Val.str "a"]]).rows.length
    ∧ ((encode_data (DataFrame.mk [("t", Dtype.object)]
          [[Val.str "a"], [Val.str "b"], [Val.str "a"]]) "t").y.getD 2 0
        < (encode_data (DataFrame.mk [("t", Dtype.object)]
          [[Val.str "a"], [Val.str "b"], [Val.str "a"]]) "t").target_labels.length
      ∧ (encode_data (DataFrame.mk [("t", Dtype.object)]
          [[Val.str "a"], [Val.str "b"], [Val.str "a"]]) "t").target_labels.getD
          ((encode_data (DataFrame.mk [("t", Dtype.object)]
            [[Val.str "a"], [Val.str "b"], [Val.str "a"]]) "t").y.getD 2 0) (Val.num 0)
        = (colValues (DataFrame.mk [("t", Dtype.object)]
            [[Val.str "a"], [Val.str "b"], [Val.str "a"]]) "t").getD 2 (Val.num 0)) :=
  ⟨by decide, factorize_codes_index_labels _ "t" 2 (by decide)⟩

/-- C1 (counterexample): with exactly two distinct target labels the
lightGBM branch picks the binary objective but does NOT apply
class-balancing weighting — `class_weight='balanced'` is passed only in
the multiclass branch (src/app.py lines 247-258), contradicting the claim
that balancing is applied in the binary case. -/
theorem lightGBM_binary_not_balanced :
    (lightGBM_clf [Val.num 0, Val.num 1]).objective = "binary"
    ∧ ¬ (lightGBM_clf [Val.num 0, Val.num 1]).class_weight = some "balanced" := by
  constructor
  · rfl
  · intro h
    simp [lightGBM_clf] at h

/-- C1 (amended): the lightGBM branch selects the multiclass objective
exactly when more than two distinct target labels are present and the
binary objective otherwise, and applies class-balancing weighting in the
multiclass case (and only then). -/
theorem lightGBM_objective_and_balancing (target_labels : List Val) :
    ((lightGBM_clf target_labels).objective = "multiclass" ↔ 2 < target_labels.length)
    ∧ ((lightGBM_clf target_labels).objective = "binary" ↔ ¬ 2 < target_labels.length)
    ∧ ((lightGBM_clf target_labels).class_weight = some "balanced"
        ↔ 2 < target_labels.length) := by
  by_cases h : 2 < target_labels.length <;> simp [lightGBM_clf, h]

/-- C2: the SHAP local explanation selects the class-indexed contribution
array and the base/expected value using the row's predicted class — the
integer in the prediction vector at the selected index — and its output is
independent of the true labels (which `show_local_interpretation` receives
but passes only into the headline, never into the SHAP selection). -/
theorem shap_local_uses_predicted_class (X_test : List (List Val))
    (y_test y_test' : List Nat) (expected_value : List ℚ)
    (shap_values : List (List (List ℚ))) (pred : List Nat)
    (target_labels : List Val) (slider_idx : Nat) (h : slider_idx < pred.length) :
    (show_local_interpretation X_test y_test expected_value shap_values pred
        target_labels "SHAP" slider_idx).2
      = some { base := expected_value.getD pred[slider_idx] 0,
               contribs := (shap_values.getD pred[slider_idx] []).getD slider_idx [],
               rowValues := X_test.getD slider_idx [] }
    ∧ (show_local_interpretation X_test y_test expected_value shap_values pred
        target_labels "SHAP" slider_idx).2
      = (show_local_interpretation X_test y_test' expected_value shap_values pred
        target_labels "SHAP" slider_idx).2 := by
  constructor
  · simp [show_local_interpretation, show_local_interpretation_shap,
      List.getD_eq_getElem?_getD, List.getElem?_eq_getElem h]
  · simp [show_local_interpretation]

/-- Witness for C2: with pred = [1] and differing true labels [0] vs [1],
the selection follows class 1 (the predicted class) either way. -/
theorem shap_local_uses_predicted_class_witness :
    0 < ([1] : List Nat).length
    ∧ ((show_local_interpretation [[Val.num 5]] [0] [(1 : ℚ), 2]
          [[[(30 : ℚ)]], [[40]]] [1] [Val.num 0, Val.num 1] "SHAP" 0).2
        = some { base := (2 : ℚ), contribs := [(40 : ℚ)], rowValues := [Val.num 5] }
      ∧ (show_local_interpretation [[Val.num 5]] [0] [(1 : ℚ), 2]
          [[[(30 : ℚ)]], [[40]]] [1] [Val.num 0, Val.num 1] "SHAP" 0).2
        = (show_local_interpretation [[Val.num 5]] [1] [(1 : ℚ), 2]
          [[[(30 : ℚ)]], [[40]]] [1] [Val.num 0, Val.num 1] "SHAP" 0).2) :=
  ⟨by decide, shap_local_uses_predicted_class [[Val.num 5]] [0] [1] [(1 : ℚ), 2]
    [[[(30 : ℚ)]], [[40]]] [1] [Val.num 0, Val.num 1] 0 (by decide)⟩

/-- C5: for both methodologies the global explanation ranking contains at
most 5 entries (the fixed top_k), the selected ranking is sorted by
descending absolute importance score, and the displayed scores are the
selected scores rounded to two decimals. -/
theorem global_ranking_topk_sorted_rounded (scores meanAbs : List (String × ℚ)) :
    (show_global_interpretation_eli5 scores).length ≤ 5
    ∧ List.Sorted absDescRel (explain_weights_df scores 5)
    ∧ show_global_interpretation_eli5 scores
        = (explain_weights_df scores 5).map (fun p => (p.1, round2 p.2))
    ∧ (show_global_interpretation_shap meanAbs).length ≤ 5
    ∧ List.Sorted absDescRel (shap_summary_ranking meanAbs 5)
    ∧ show_global_interpretation_shap meanAbs
        = (shap_summary_ranking meanAbs 5).map (fun p => (p.1, round2 p.2)) := by
  refine ⟨?_, ?_, rfl, ?_, ?_, rfl⟩
  · simp [show_global_interpretation_eli5, explain_weights_df]
  · exact List.Pairwise.sublist (List.take_sublist 5 _)
      (List.sorted_insertionSort absDescRel scores)
  · simp [show_global_interpretation_shap, shap_summary_ranking]
  · exact List.Pairwise.sublist (List.take_sublist 5 _)
      (List.sorted_insertionSort absDescRel meanAbs)

/-- C6: for every adapter kind, training fails with a `TrainingError` iff
y_train has fewer than 2 distinct classes, and on failure no model value
is produced (the result is an error, never `ok`). -/
theorem train_fails_iff_single_class (kind : ModelDim) (X_train : List (List Val))
    (y_train : List Nat) :
    ((∃ e, train kind X_train y_train = Except.error e) ↔ y_train.toFinset.card < 2)
    ∧ (∀ m, train kind X_train y_train = Except.ok m → 2 ≤ y_train.toFinset.card) := by
  rw [← pdUnique_length_eq_card]
  by_cases h : (pdUnique y_train).length < 2
  · refine ⟨⟨fun _ => h, fun _ => ⟨TrainingError.insufficientClasses, by simp [train, h]⟩⟩, ?_⟩
    intro m hm
    simp [train, h] at hm
  · refine ⟨⟨fun he => ?_, fun hlt => absurd hlt h⟩, ?_⟩
    · obtain ⟨e, he⟩ := he
      simp [train, h] at he
    · intro m _
      omega

/-- Witness for C6: a single-class target fails; a two-class target yields
a model. -/
theorem train_fails_iff_single_class_witness :
    (((∃ e, train ModelDim.lightGBM [] [0, 0] = Except.error e)
        ↔ ([0, 0] : List Nat).toFinset.card < 2)
      ∧ (∀ m, train ModelDim.lightGBM [] [0, 0] = Except.ok m
          → 2 ≤ ([0, 0] : List Nat).toFinset.card))
    ∧ (((∃ e, train ModelDim.randomforest [] [0, 1] = Except.error e)
        ↔ ([0, 1] : List Nat).toFinset.card < 2)
      ∧ (∀ m, train ModelDim.randomforest [] [0, 1] = Except.ok m
          → 2 ≤ ([0, 1] : List Nat).toFinset.card)) :=
  ⟨train_fails_iff_single_class ModelDim.lightGBM [] [0, 0],
   train_fails_iff_single_class ModelDim.randomforest [] [0, 1]⟩

/-- C7: `splitdata` fails with an insufficient-data error exactly when its
input has fewer than 2 rows; with at least 2 rows it partitions the rows
(and the aligned targets) into a train part of `floor(0.8 * n) = 4n/5`
rows and a test part holding the rest. -/
theorem splitdata_spec (X : List (List Val)) (y : List Nat)
    (hlen : X.length = y.length) :
    ((∃ e, splitdata X y = Except.error e) ↔ X.length < 2)
    ∧ (∀ Xtr Xte ytr yte, splitdata X y = Except.ok (Xtr, Xte, ytr, yte) →
        Xtr.length = 4 * X.length / 5
        ∧ Xte.length = X.length - 4 * X.length / 5
        ∧ Xtr ++ Xte = X
        ∧ ytr.length = 4 * X.length / 5
        ∧ ytr ++ yte = y) := by
  have hiff : (4 * X.length / 5 = 0 ∨ X.length - 4 * X.length / 5 = 0) ↔ X.length < 2 := by
    omega
  by_cases hc : 4 * X.length / 5 = 0 ∨ X.length - 4 * X.length / 5 = 0
  · constructor
    · exact ⟨fun _ => hiff.mp hc,
        fun _ => ⟨SplitError.insufficientData, by simp [splitdata, train_test_split, hc]⟩⟩
    · intro Xtr Xte ytr yte habs
      simp [splitdata, train_test_split, hc] at habs
  · constructor
    · constructor
      · intro he
        obtain ⟨e, he⟩ := he
        simp [splitdata, train_test_split, hc] at he
      · intro hlt
        exact absurd (hiff.mpr hlt) hc
    · intro Xtr Xte ytr yte hok
      simp [splitdata, train_test_split, hc] at hok
      obtain ⟨h1, h2, h3, h4⟩ := hok
      refine ⟨?_, ?_, ?_, ?_, ?_⟩
      · rw [← h1]
        simp [List.length_take]
        omega
      · rw [← h2]
        simp [List.length_drop]
      · rw [← h1, ← h2]
        exact List.take_append_drop _ X
      · rw [← h3]
        simp [List.length_take]
        omega
      · rw [← h3, ← h4]
        exact List.take_append_drop _ y

/-- Witness for C7: two rows split into one train row and one test row. -/
theorem splitdata_spec_witness :
    ([[Val.num 0], [Val.num 1]] : List (List Val)).length = ([0, 1] : List Nat).length
    ∧ (((∃ e, splitdata [[Val.num 0], [Val.num 1]] [0, 1] = Except.error e)
        ↔ ([[Val.num 0], [Val.num 1]] : List (List Val)).length < 2)
      ∧ (∀ Xtr Xte ytr yte,
          splitdata [[Val.num 0], [Val.num 1]] [0, 1] = Except.ok (Xtr, Xte, ytr, yte) →
          Xtr.length = 4 * ([[Val.num 0], [Val.num 1]] : List (List Val)).length / 5
          ∧ Xte.length = ([[Val.num 0], [Val.num 1]] : List (List Val)).length
              - 4 * ([[Val.num 0], [Val.num 1]] : List (List Val)).length / 5
          ∧ Xtr ++ Xte = [[Val.num 0], [Val.num 1]]
          ∧ ytr.length = 4 * ([[Val.num 0], [Val.num 1]] : List (List Val)).length / 5
          ∧ ytr ++ yte = [0, 1])) :=
  ⟨rfl, splitdata_spec [[Val.num 0], [Val.num 1]] [0, 1] rfl⟩

/-- C8 (counterexample): `encode_data` does not leave its input table
unchanged — the in-place assignment `data[targetcol] =
data[targetcol].astype('object')` (src/app.py line 52) changes the target
column's dtype, so the frame after encoding differs from the input frame
for a numeric target column. -/
theorem encode_data_mutates_input :
    ¬ (encode_data (DataFrame.mk [("t", Dtype.numeric)] [[Val.num 0]]) "t").dataAfter
      = DataFrame.mk [("t", Dtype.numeric)] [[Val.num 0]] := by
  decide

/-- C8 (amended): the core operations are pure over in-memory data and
perform no I/O (each is embedded as a total function), except that
`encode_data` coerces the target column's dtype to object in place; it
leaves every cell value and every column name unchanged, and the dtype of
every non-target column unchanged. -/
theorem encode_data_frame_condition (data : DataFrame) (targetcol : String) :
    (encode_data data targetcol).dataAfter.rows = data.rows
    ∧ (encode_data data targetcol).dataAfter.header.map Prod.fst = data.header.map Prod.fst
    ∧ (∀ p, p ∈ data.header → p.1 ≠ targetcol
        → p ∈ (encode_data data targetcol).dataAfter.header)
    ∧ (∀ p, p ∈ (encode_data data targetcol).dataAfter.header → p.1 = targetcol
        → p.2 = Dtype.object) := by
  refine ⟨rfl, ?_, ?_, ?_⟩
  · simp only [encode_data, setDtype, List.map_map]
    apply List.map_congr_left
    intro h _
    by_cases hc : h.1 = targetcol <;> simp [hc]
  · intro p hp hne
    simp only [encode_data, setDtype, List.mem_map]
    exact ⟨p, hp, by simp [hne]⟩
  · intro p hp htc
    simp only [encode_data, setDtype, List.mem_map] at hp
    obtain ⟨q, _, hq⟩ := hp
    by_cases hc : q.1 = targetcol
    · rw [← hq]
      simp [hc]
    · rw [← hq] at htc
      simp [hc] at htc

/-- Witness for C8 (amended): a two-column frame keeps its values and
names; the target column's dtype becomes object, the other stays. -/
theorem encode_data_frame_condition_witness :
    ((encode_data (DataFrame.mk [("a", Dtype.numeric), ("t", Dtype.numeric)]
        [[Val.num 1, Val.num 2]]) "t").dataAfter.rows = [[Val.num 1, Val.num 2]]
    ∧ (encode_data (DataFrame.mk [("a", Dtype.numeric), ("t", Dtype.numeric)]
        [[Val.num 1, Val.num 2]]) "t").dataAfter.header.map Prod.fst
      = [("a", Dtype.numeric), ("t", Dtype.numeric)].map Prod.fst
    ∧ (∀ p, p ∈ [("a", Dtype.numeric), ("t", Dtype.numeric)] → p.1 ≠ "t"
        → p ∈ (encode_data (DataFrame.mk [("a", Dtype.numeric), ("t", Dtype.numeric)]
            [[Val.num 1, Val.num 2]]) "t").dataAfter.header)
    ∧ (∀ p, p ∈ (encode_data (DataFrame.mk [("a", Dtype.numeric), ("t", Dtype.numeric)]
          [[Val.num 1, Val.num 2]]) "t").dataAfter.header → p.1 = "t"
        → p.2 = Dtype.object)) :=
  encode_data_frame_condition
    (DataFrame.mk [("a", Dtype.numeric), ("t", Dtype.numeric)] [[Val.num 1, Val.num 2]]) "t"

end MLInterpret
